import Mathlib

/-!
Verification of the capability-decoding and negotiation core of
`pyftms` (`src/pyftms/client/properties/features.py`), shallowly
embedded in Lean 4.

Bitfields are embedded as `Nat` values; each `IntFlag` symbol becomes
an explicit power-of-two constant mirroring Python's `auto()`
declaration order.  Fallible decoding returns `Except FtmsError`.
-/

namespace PyFtms

/-- Error taxonomy of the capability-discovery core (spec §7).
`undefinedFlag` models Python's `UndefinedFlagError` raised by a
`boundary=STRICT` `IntFlag` constructor; `truncatedBuffer` and
`trailingData` model the buffer-length failures of the fixed-point
codec and of `_range`'s final `assert not bio.read(1)`. -/
inductive FtmsError where
  | undefinedFlag
  | truncatedBuffer
  | trailingData
  deriving DecidableEq, Repr

/- The 17 `MachineFeatures` flags of `features.py` lines 45-85, in
declaration order; `auto()` assigns consecutive powers of two starting
at 1, so the k-th symbol is bit k. -/
namespace MachineFeatures

def AVERAGE_SPEED : Nat := 0x1
def CADENCE : Nat := 0x2
def DISTANCE : Nat := 0x4
def INCLINATION : Nat := 0x8
def ELEVATION_GAIN : Nat := 0x10
def PACE : Nat := 0x20
def STEP_COUNT : Nat := 0x40
def RESISTANCE : Nat := 0x80
def STRIDE_COUNT : Nat := 0x100
def EXPENDED_ENERGY : Nat := 0x200
def HEART_RATE : Nat := 0x400
def METABOLIC_EQUIVALENT : Nat := 0x800
def ELAPSED_TIME : Nat := 0x1000
def REMAINING_TIME : Nat := 0x2000
def POWER_MEASUREMENT : Nat := 0x4000
def FORCE_ON_BELT_AND_POWER_OUTPUT : Nat := 0x8000
def USER_DATA_RETENTION : Nat := 0x10000

/-- Union of all defined `MachineFeatures` bit positions: the flag
universe that Python's `IntFlag` computes from the declared members. -/
def mask : Nat :=
  AVERAGE_SPEED ||| CADENCE ||| DISTANCE ||| INCLINATION |||
  ELEVATION_GAIN ||| PACE ||| STEP_COUNT ||| RESISTANCE |||
  STRIDE_COUNT ||| EXPENDED_ENERGY ||| HEART_RATE |||
  METABOLIC_EQUIVALENT ||| ELAPSED_TIME ||| REMAINING_TIME |||
  POWER_MEASUREMENT ||| FORCE_ON_BELT_AND_POWER_OUTPUT |||
  USER_DATA_RETENTION

/-- `MachineFeatures(raw)` with `boundary=STRICT`: succeeds with the
raw value itself iff every set bit is a defined flag, otherwise raises
`UndefinedFlagError`. -/
def ofNat (raw : Nat) : Except FtmsError Nat :=
  if raw &&& mask = raw then .ok raw else .error .undefinedFlag

end MachineFeatures

/- The 17 `MachineSettings` flags of `features.py` lines 88-128, in
declaration order (`auto()` semantics as above). -/
namespace MachineSettings

def SPEED : Nat := 0x1
def INCLINE : Nat := 0x2
def RESISTANCE : Nat := 0x4
def POWER : Nat := 0x8
def HEART_RATE : Nat := 0x10
def ENERGY : Nat := 0x20
def STEPS : Nat := 0x40
def STRIDES : Nat := 0x80
def DISTANCE : Nat := 0x100
def TIME : Nat := 0x200
def TIME_TWO_ZONES : Nat := 0x400
def TIME_THREE_ZONES : Nat := 0x800
def TIME_FIVE_ZONES : Nat := 0x1000
def BIKE_SIMULATION : Nat := 0x2000
def CIRCUMFERENCE : Nat := 0x4000
def SPIN_DOWN : Nat := 0x8000
def CADENCE : Nat := 0x10000

/-- Union of all defined `MachineSettings` bit positions. -/
def mask : Nat :=
  SPEED ||| INCLINE ||| RESISTANCE ||| POWER ||| HEART_RATE |||
  ENERGY ||| STEPS ||| STRIDES ||| DISTANCE ||| TIME |||
  TIME_TWO_ZONES ||| TIME_THREE_ZONES ||| TIME_FIVE_ZONES |||
  BIKE_SIMULATION ||| CIRCUMFERENCE ||| SPIN_DOWN ||| CADENCE

/-- `MachineSettings(raw)` with `boundary=STRICT`. -/
def ofNat (raw : Nat) : Except FtmsError Nat :=
  if raw &&& mask = raw then .ok raw else .error .undefinedFlag

end MachineSettings

theorem machineFeatures_mask_eq : MachineFeatures.mask = 0x1FFFF := by
  decide

theorem machineSettings_mask_eq : MachineSettings.mask = 0x1FFFF := by
  decide

/-- Modelled from the spec: `MachineType` is imported from
`..machine_type`, which is outside `src/`; §3 describes it as a set of
named device-category flags (at least treadmill, cross-trainer,
indoor-bike, rower), of which `read_features` only tests membership of
those four.  Each field is the truth of one membership test
(`MachineType.X in mt`). -/
structure MachineType where
  treadmill : Bool
  cross_trainer : Bool
  indoor_bike : Bool
  rower : Bool
  deriving DecidableEq, Repr

/- Modelled from the spec: the `*_RANGE_UUID` constants come from
`..const`, outside `src/`; they are the distinct identifiers of the
five auxiliary range descriptors (§6).  Values follow the FTMS
characteristic numbers; only their distinctness matters here. -/

def SPEED_RANGE_UUID : String := "00002ad4"

def INCLINATION_RANGE_UUID : String := "00002ad5"

def RESISTANCE_LEVEL_RANGE_UUID : String := "00002ad6"

def HEART_RATE_RANGE_UUID : String := "00002ad7"

def POWER_RANGE_UUID : String := "00002ad8"

/- Modelled from the spec: the `TARGET_*` key constants come from
`..const`, outside `src/`; §3 names the five range-bearing
target-setting identifiers speed, incline, resistance, power,
heart-rate. -/

def TARGET_SPEED : String := "speed"

def TARGET_INCLINATION : String := "incline"

def TARGET_RESISTANCE : String := "resistance"

def TARGET_POWER : String := "power"

def TARGET_HEART_RATE : String := "heart_rate"

/-- One presence-pruning block of `read_features` (lines 160-198):
`if BIT in settings: if get_characteristic(uuid) is None: settings &=
~BIT`.  For the single-flag constants here `BIT in settings` is
`settings &&& BIT = BIT`, and Python's `IntFlag` complement `~BIT` is
taken inside the flag universe, `mask ^^^ BIT`.  `present` is the
truth of "the range characteristic exists". -/
def prune (bit : Nat) (present : Bool) (settings : Nat) : Nat :=
  if settings &&& bit = bit then
    if present = false then settings &&& (MachineSettings.mask ^^^ bit)
    else settings
  else settings

/-- Phase 1 of `read_features` (lines 160-198): remove each of the
five range-bearing settings whose range characteristic is absent, in
source order speed, incline, resistance, power, heart-rate.
`hasChar u` models `cli.services.get_characteristic(u) is not None`. -/
def phase1 (hasChar : String → Bool) (settings : Nat) : Nat :=
  prune MachineSettings.HEART_RATE (hasChar HEART_RATE_RANGE_UUID)
    (prune MachineSettings.POWER (hasChar POWER_RANGE_UUID)
      (prune MachineSettings.RESISTANCE (hasChar RESISTANCE_LEVEL_RANGE_UUID)
        (prune MachineSettings.INCLINE (hasChar INCLINATION_RANGE_UUID)
          (prune MachineSettings.SPEED (hasChar SPEED_RANGE_UUID) settings))))

/-- Phase 2 of `read_features` (lines 200-212): the category-pruning
`if`/`elif` chain, first matching category wins. -/
def phase2 (mt : MachineType) (settings : Nat) : Nat :=
  if mt.treadmill then
    settings &&& (MachineSettings.mask ^^^
      (MachineSettings.RESISTANCE ||| MachineSettings.POWER))
  else if mt.cross_trainer then
    settings &&& (MachineSettings.mask ^^^
      (MachineSettings.SPEED ||| MachineSettings.INCLINE))
  else if mt.indoor_bike then
    settings &&& (MachineSettings.mask ^^^
      (MachineSettings.SPEED ||| MachineSettings.INCLINE))
  else if mt.rower then
    settings &&& (MachineSettings.mask ^^^
      (MachineSettings.SPEED ||| MachineSettings.INCLINE))
  else settings

/-- The settings-negotiation part of `read_features` (lines 158-212):
presence pruning followed by category pruning. -/
def negotiate (hasChar : String → Bool) (mt : MachineType)
    (settings : Nat) : Nat :=
  phase2 mt (phase1 hasChar settings)

/-- A fixed-point number format of `NumSerializer`: signedness, byte
width, and base-10 exponent of the scale factor `10 ^ (-exponent)`
(spec §4.1). -/
structure NumFormat where
  signed : Bool
  width : Nat
  exponent : Nat
  deriving DecidableEq, Repr

/-- Format string `"u4"`: unsigned, 4 bytes, scale 1. -/
def fmt_u4 : NumFormat := ⟨false, 4, 0⟩

/-- Format string `"u2.01"`: unsigned, 2 bytes, scale 0.01. -/
def fmt_u2_01 : NumFormat := ⟨false, 2, 2⟩

/-- Format string `"s2.1"`: signed, 2 bytes, scale 0.1. -/
def fmt_s2_1 : NumFormat := ⟨true, 2, 1⟩

/-- Format string `"s2"`: signed, 2 bytes, scale 1. -/
def fmt_s2 : NumFormat := ⟨true, 2, 0⟩

/-- Format string `"u1"`: unsigned, 1 byte, scale 1. -/
def fmt_u1 : NumFormat := ⟨false, 1, 0⟩

/-- Little-endian value of a byte list (least significant byte
first). -/
def leBytes : List Nat → Nat
  | [] => 0
  | b :: rest => b + 256 * leBytes rest

/-- Modelled from the spec: `NumSerializer.deserialize` lives in
`...serializer`, outside `src/`.  Per §4.1 it consumes exactly
`width` bytes from the source, interprets them little-endian as signed
or unsigned, scales by `10 ^ (-exponent)`, and fails with
`TruncatedBufferError` when fewer than `width` bytes remain.  Returns
the value and the unconsumed remainder of the buffer. -/
def deserialize (f : NumFormat) (data : List Nat) :
    Except FtmsError (ℚ × List Nat) :=
  if f.width ≤ data.length then
    let u := leBytes (data.take f.width)
    let v : ℤ :=
      if f.signed ∧ 2 ^ (8 * f.width - 1) ≤ u then
        (u : ℤ) - 2 ^ (8 * f.width)
      else (u : ℤ)
    .ok ((v : ℚ) / 10 ^ f.exponent, data.drop f.width)
  else .error .truncatedBuffer

/-- `SettingRange` (lines 131-139): the (min, max, step) triple of a
settings parameter.  Embedded with exact rationals in place of Python
floats; all wire values are decimal fixed-point, hence exact. -/
structure SettingRange where
  min_value : ℚ
  max_value : ℚ
  step : ℚ
  deriving DecidableEq, Repr

/-- The decoding part of `_range` (lines 228-235) applied to the bytes
read for one descriptor: deserialize three fixed-point values
(min, max, step) and require the buffer to be fully consumed
(`assert not bio.read(1)`, the spec's `TrailingDataError`).  The
source's `or 0` is a numeric no-op (`x or 0 == x` for numbers, since
the modelled deserialize never yields `None`). -/
def settingRangeOf (f : NumFormat) (data : List Nat) :
    Except FtmsError SettingRange :=
  match deserialize f data with
  | .error e => .error e
  | .ok (a, d1) =>
    match deserialize f d1 with
    | .error e => .error e
    | .ok (b, d2) =>
      match deserialize f d2 with
      | .error e => .error e
      | .ok (c, d3) =>
        if d3 = [] then .ok ⟨a, b, c⟩ else .error .trailingData

/-- One conditional block of `read_supported_ranges` (lines 237-250):
`if BIT in settings: result[key] = await _range(uuid, fmt)`.  `bytes`
is what the transport returned for this descriptor; a decode failure
aborts the whole read, otherwise the pair is appended (each key is
written at most once, so insertion order equals append order). -/
def addRange (bit : Nat) (key : String) (f : NumFormat)
    (bytes : List Nat) (settings : Nat)
    (acc : List (String × SettingRange)) :
    Except FtmsError (List (String × SettingRange)) :=
  if settings &&& bit = bit then
    match settingRangeOf f bytes with
    | .error e => .error e
    | .ok r => .ok (acc ++ [(key, r)])
  else .ok acc

/-- `read_supported_ranges` (lines 220-254): for each of the five
range-bearing settings present in `settings`, in source order, read
and decode its range descriptor; `readBytes u` models
`cli.read_gatt_char(u)`. -/
def read_supported_ranges (readBytes : String → List Nat)
    (settings : Nat) :
    Except FtmsError (List (String × SettingRange)) :=
  match addRange MachineSettings.SPEED TARGET_SPEED fmt_u2_01
      (readBytes SPEED_RANGE_UUID) settings [] with
  | .error e => .error e
  | .ok r1 =>
    match addRange MachineSettings.INCLINE TARGET_INCLINATION fmt_s2_1
        (readBytes INCLINATION_RANGE_UUID) settings r1 with
    | .error e => .error e
    | .ok r2 =>
      match addRange MachineSettings.RESISTANCE TARGET_RESISTANCE fmt_s2_1
          (readBytes RESISTANCE_LEVEL_RANGE_UUID) settings r2 with
      | .error e => .error e
      | .ok r3 =>
        match addRange MachineSettings.POWER TARGET_POWER fmt_s2
            (readBytes POWER_RANGE_UUID) settings r3 with
        | .error e => .error e
        | .ok r4 =>
          addRange MachineSettings.HEART_RATE TARGET_HEART_RATE fmt_u1
            (readBytes HEART_RATE_RANGE_UUID) settings r4

/-- The pure part of `read_features` (lines 142-217): split the 8-byte
feature characteristic into two little-endian `u32` values, decode
both strictly, then negotiate the settings. -/
def read_features (hasChar : String → Bool) (mt : MachineType)
    (data : List Nat) : Except FtmsError (Nat × Nat) :=
  if data.length = 8 then
    match MachineFeatures.ofNat (leBytes (data.take 4)) with
    | .error e => .error e
    | .ok features =>
      match MachineSettings.ofNat (leBytes (data.drop 4)) with
      | .error e => .error e
      | .ok settings => .ok (features, negotiate hasChar mt settings)
  else .error .truncatedBuffer

/-! ### Helper lemmas -/

theorem testBit_of_testBit_land {x m i : Nat}
    (h : (x &&& m).testBit i = true) : x.testBit i = true := by
  rw [Nat.testBit_and] at h
  exact (Bool.and_eq_true _ _ ▸ h).1

theorem prune_testBit {b : Nat} {p : Bool} {s i : Nat}
    (h : (prune b p s).testBit i = true) : s.testBit i = true := by
  unfold prune at h
  split at h
  · split at h
    · exact testBit_of_testBit_land h
    · exact h
  · exact h

theorem phase1_testBit {hc : String → Bool} {s i : Nat}
    (h : (phase1 hc s).testBit i = true) : s.testBit i = true := by
  unfold phase1 at h
  exact prune_testBit (prune_testBit (prune_testBit (prune_testBit
    (prune_testBit h))))

theorem phase2_testBit {mt : MachineType} {s i : Nat}
    (h : (phase2 mt s).testBit i = true) : s.testBit i = true := by
  unfold phase2 at h
  split at h
  · exact testBit_of_testBit_land h
  · split at h
    · exact testBit_of_testBit_land h
    · split at h
      · exact testBit_of_testBit_land h
      · split at h
        · exact testBit_of_testBit_land h
        · exact h

theorem negotiate_testBit {hc : String → Bool} {mt : MachineType}
    {s i : Nat} (h : (negotiate hc mt s).testBit i = true) :
    s.testBit i = true :=
  phase1_testBit (phase2_testBit h)

theorem land_self_iff_land_compl_eq_zero {m raw : Nat}
    (hraw : raw < 2 ^ 32) :
    raw &&& m = raw ↔ raw &&& (0xFFFFFFFF ^^^ m) = 0 := by
  have hff : (0xFFFFFFFF : Nat) = 2 ^ 32 - 1 := by norm_num
  constructor
  · intro h
    apply Nat.eq_of_testBit_eq
    intro i
    rw [Nat.testBit_and, Nat.testBit_xor, Nat.zero_testBit, hff,
      Nat.testBit_two_pow_sub_one]
    by_cases hi : i < 32
    · cases hb : raw.testBit i with
      | false => rw [Bool.false_and]
      | true =>
        have hmb : m.testBit i = true := by
          have := congrArg (fun x => Nat.testBit x i) h
          simp only [Nat.testBit_and] at this
          rw [hb] at this
          simpa using this.symm
        simp [hmb, hi]
    · have hb : raw.testBit i = false :=
        Nat.testBit_lt_two_pow
          (lt_of_lt_of_le hraw (Nat.pow_le_pow_right (by norm_num)
            (le_of_not_lt hi)))
      rw [hb, Bool.false_and]
  · intro h
    apply Nat.eq_of_testBit_eq
    intro i
    rw [Nat.testBit_and]
    by_cases hi : i < 32
    · cases hb : raw.testBit i with
      | false => rw [Bool.false_and]
      | true =>
        have := congrArg (fun x => Nat.testBit x i) h
        simp only [Nat.testBit_and, Nat.testBit_xor, Nat.zero_testBit,
          hff, Nat.testBit_two_pow_sub_one, hb, Bool.true_and] at this
        cases hmb : m.testBit i with
        | false => simp [hmb, hi] at this
        | true => simp [hb, hmb]
    · have hb : raw.testBit i = false :=
        Nat.testBit_lt_two_pow
          (lt_of_lt_of_le hraw (Nat.pow_le_pow_right (by norm_num)
            (le_of_not_lt hi)))
      rw [hb, Bool.false_and]

/-! ### Claim C1 -/

/-- C1 (counterexample): the claim "any bit at position >= 16 set
makes decoding fail" is false at raw = 65536 = 2^16: bit 16 is set,
yet both `MachineFeatures(65536)` and `MachineSettings(65536)` decode
successfully, because both flag types define 17 members (bits 0..16:
`USER_DATA_RETENTION` resp. `CADENCE`). -/
theorem c1_bit16_decodes :
    Nat.testBit 65536 16 = true ∧ 65536 < 2 ^ 32 ∧
    MachineFeatures.ofNat 65536 = .ok 65536 ∧
    MachineSettings.ofNat 65536 = .ok 65536 :=
  ⟨by decide, by norm_num, by rfl, by rfl⟩

/-- C1 (amended): for every 32-bit features or settings bitfield value
in which any bit at position >= 17 is set, decoding it as
`read_features` does (strict `IntFlag` construction) fails with
`UndefinedFlagError`. -/
theorem ofNat_error_of_high_bit (raw i : Nat) (_hraw : raw < 2 ^ 32)
    (hi : 17 ≤ i) (hbit : raw.testBit i = true) :
    MachineFeatures.ofNat raw = .error .undefinedFlag ∧
    MachineSettings.ofNat raw = .error .undefinedFlag := by
  have key : ∀ m : Nat, m < 2 ^ 17 → ¬(raw &&& m = raw) := by
    intro m hm h
    have hstep := congrArg (fun x => Nat.testBit x i) h
    simp only [Nat.testBit_and] at hstep
    have hmb : m.testBit i = false :=
      Nat.testBit_lt_two_pow
        (lt_of_lt_of_le hm (Nat.pow_le_pow_right (by norm_num) hi))
    rw [hbit, hmb] at hstep
    simp at hstep
  constructor
  · unfold MachineFeatures.ofNat
    rw [if_neg (key _ (by rw [machineFeatures_mask_eq]; norm_num))]
  · unfold MachineSettings.ofNat
    rw [if_neg (key _ (by rw [machineSettings_mask_eq]; norm_num))]

/-- C1 (witness): the amended theorem applied at raw = 2^17. -/
theorem ofNat_error_of_high_bit_witness :
    MachineFeatures.ofNat 131072 = .error .undefinedFlag ∧
    MachineSettings.ofNat 131072 = .error .undefinedFlag :=
  ofNat_error_of_high_bit 131072 17 (by norm_num) (by norm_num)
    (by decide)

/-! ### Claim C2 -/

/-- C2: for every 32-bit raw integer, strict decoding into
`MachineFeatures` (resp. `MachineSettings`) succeeds — returning the
raw value unmasked — if and only if the integer has no bit set outside
the defined symbol set of that type, i.e. `raw &&& ~mask = 0` where
`mask` is the union of the defined bit positions and `~` is complement
within 32 bits. -/
theorem ofNat_ok_iff_no_undefined_bit (raw : Nat) (hraw : raw < 2 ^ 32) :
    (MachineFeatures.ofNat raw = .ok raw ↔
      raw &&& (0xFFFFFFFF ^^^ MachineFeatures.mask) = 0) ∧
    (MachineSettings.ofNat raw = .ok raw ↔
      raw &&& (0xFFFFFFFF ^^^ MachineSettings.mask) = 0) := by
  have hgen : ∀ m : Nat,
      (if raw &&& m = raw then (Except.ok raw : Except FtmsError Nat)
        else .error .undefinedFlag) = .ok raw ↔
      raw &&& (0xFFFFFFFF ^^^ m) = 0 := by
    intro m
    rw [← land_self_iff_land_compl_eq_zero hraw]
    constructor
    · intro h
      by_contra hc
      rw [if_neg hc] at h
      exact Except.noConfusion h
    · intro h
      rw [if_pos h]
  exact ⟨hgen MachineFeatures.mask, hgen MachineSettings.mask⟩

/-- C2 (witness): the equivalence applied at raw = 5 (both sides
true) — decoding succeeds and no undefined bit is set. -/
theorem ofNat_ok_iff_no_undefined_bit_witness :
    (MachineFeatures.ofNat 5 = .ok 5 ↔
      5 &&& (0xFFFFFFFF ^^^ MachineFeatures.mask) = 0) ∧
    (MachineSettings.ofNat 5 = .ok 5 ↔
      5 &&& (0xFFFFFFFF ^^^ MachineSettings.mask) = 0) :=
  ofNat_ok_iff_no_undefined_bit 5 (by norm_num)

/-! ### Phase-2 dispatch lemmas -/

theorem phase2_treadmill {mt : MachineType} (h : mt.treadmill = true)
    (x : Nat) :
    phase2 mt x = x &&& (MachineSettings.mask ^^^
      (MachineSettings.RESISTANCE ||| MachineSettings.POWER)) := by
  unfold phase2
  rw [h]
  simp

theorem phase2_non_treadmill {mt : MachineType}
    (ht : mt.treadmill = false)
    (hor : (mt.cross_trainer || mt.indoor_bike || mt.rower) = true)
    (x : Nat) :
    phase2 mt x = x &&& (MachineSettings.mask ^^^
      (MachineSettings.SPEED ||| MachineSettings.INCLINE)) := by
  unfold phase2
  cases hct : mt.cross_trainer with
  | true => simp [ht, hct]
  | false =>
    cases hib : mt.indoor_bike with
    | true => simp [ht, hct, hib]
    | false =>
      cases hr : mt.rower with
      | true => simp [ht, hct, hib, hr]
      | false => rw [hct, hib, hr] at hor; simp at hor

theorem phase2_no_category {mt : MachineType}
    (h1 : mt.treadmill = false) (h2 : mt.cross_trainer = false)
    (h3 : mt.indoor_bike = false) (h4 : mt.rower = false) (x : Nat) :
    phase2 mt x = x := by
  unfold phase2
  simp [h1, h2, h3, h4]

/-! ### Claim C5 -/

/-- C5: for every raw settings value, equipment category and
presence predicate, the negotiated settings produced by
`read_features` are a subset of the raw settings: every asserted bit
of the result was asserted in the input. -/
theorem negotiate_subset_raw (hc : String → Bool) (mt : MachineType)
    (s i : Nat) (h : (negotiate hc mt s).testBit i = true) :
    s.testBit i = true :=
  negotiate_testBit h

/-- C5 (witness): applied at a concrete surviving bit. -/
theorem negotiate_subset_raw_witness :
    (negotiate (fun _ => true) ⟨false, false, false, false⟩ 1).testBit 0
        = true ∧
    Nat.testBit 1 0 = true :=
  ⟨by decide,
    negotiate_subset_raw (fun _ => true) ⟨false, false, false, false⟩ 1 0
      (by decide)⟩

/-! ### Claim C6 -/

/-- C6 (counterexample): the negotiated settings value is not always a
strict subset of the input — with no prunable bit and no matching
category, negotiation returns its input unchanged (here at raw
settings 0, all range characteristics present, no category
asserted). -/
theorem negotiate_fixed_point :
    negotiate (fun _ => true) ⟨false, false, false, false⟩ 0 = 0 := by
  decide

/-- C6 (amended): the negotiated settings value is a subset of the raw
settings value, but not necessarily a strict one — it can equal the
input. -/
theorem negotiate_or_raw (hc : String → Bool) (mt : MachineType)
    (s : Nat) : negotiate hc mt s ||| s = s := by
  apply Nat.eq_of_testBit_eq
  intro i
  rw [Nat.testBit_or]
  cases hres : (negotiate hc mt s).testBit i with
  | false => rw [Bool.false_or]
  | true => rw [negotiate_testBit hres]; rfl

/-! ### Claim C7 -/

/-- C7: if the equipment category asserts treadmill, the negotiated
settings never contain the resistance bit (2) or the power bit (3),
regardless of the raw input and the presence predicate. -/
theorem negotiate_treadmill_clears_resistance_power
    (hc : String → Bool) (mt : MachineType) (s : Nat)
    (h : mt.treadmill = true) :
    (negotiate hc mt s).testBit 2 = false ∧
    (negotiate hc mt s).testBit 3 = false := by
  unfold negotiate
  rw [phase2_treadmill h]
  constructor
  · rw [Nat.testBit_and,
      show Nat.testBit (MachineSettings.mask ^^^
        (MachineSettings.RESISTANCE ||| MachineSettings.POWER)) 2 = false
        from by decide,
      Bool.and_false]
  · rw [Nat.testBit_and,
      show Nat.testBit (MachineSettings.mask ^^^
        (MachineSettings.RESISTANCE ||| MachineSettings.POWER)) 3 = false
        from by decide,
      Bool.and_false]

/-- C7 (witness): applied at a treadmill with every setting
advertised and every range characteristic present. -/
theorem negotiate_treadmill_clears_resistance_power_witness :
    (negotiate (fun _ => true) ⟨true, false, false, false⟩
        0x1FFFF).testBit 2 = false ∧
    (negotiate (fun _ => true) ⟨true, false, false, false⟩
        0x1FFFF).testBit 3 = false :=
  negotiate_treadmill_clears_resistance_power (fun _ => true)
    ⟨true, false, false, false⟩ 0x1FFFF rfl

/-! ### Claim C10 -/

/-- C10: if the equipment category asserts none of treadmill,
cross-trainer, indoor-bike or rower, phase 2 clears nothing:
`read_features` returns exactly the phase-1-pruned settings. -/
theorem negotiate_no_category_eq_phase1 (hc : String → Bool)
    (mt : MachineType) (s : Nat)
    (h1 : mt.treadmill = false) (h2 : mt.cross_trainer = false)
    (h3 : mt.indoor_bike = false) (h4 : mt.rower = false) :
    negotiate hc mt s = phase1 hc s := by
  unfold negotiate
  rw [phase2_no_category h1 h2 h3 h4]

/-- C10 (witness): applied at a category asserting nothing. -/
theorem negotiate_no_category_eq_phase1_witness :
    negotiate (fun _ => true) ⟨false, false, false, false⟩ 7 =
      phase1 (fun _ => true) 7 :=
  negotiate_no_category_eq_phase1 (fun _ => true)
    ⟨false, false, false, false⟩ 7 rfl rfl rfl rfl

/-! ### Claim C4 -/

theorem phase1_testBit_high {hc : String → Bool} {s : Nat}
    (hs : s < 2 ^ 17) :
    ∀ i, 17 ≤ i → (phase1 hc s).testBit i = false := by
  intro i hi
  cases hb : (phase1 hc s).testBit i with
  | false => rfl
  | true =>
    have hsb := phase1_testBit hb
    have : s.testBit i = false :=
      Nat.testBit_lt_two_pow
        (lt_of_lt_of_le hs (Nat.pow_le_pow_right (by norm_num) hi))
    rw [hsb] at this
    exact this

/-- C4: for every valid raw settings value, category value and
presence predicate, exactly one category rule set is applied in
phase 2, first match winning in the order treadmill, cross-trainer,
indoor-bike, rower: a treadmill category clears exactly resistance
(bit 2) and power (bit 3) and leaves every other bit of the
phase-1 result unchanged (in particular speed and incline, even if the
category also asserts cross-trainer, indoor-bike or rower); a
non-treadmill category asserting cross-trainer, indoor-bike or rower
clears exactly speed (bit 0) and incline (bit 1). -/
theorem phase2_rule_dispatch (hc : String → Bool) (mt : MachineType)
    (s : Nat) (hs : s < 2 ^ 17) :
    (mt.treadmill = true →
      (negotiate hc mt s).testBit 2 = false ∧
      (negotiate hc mt s).testBit 3 = false ∧
      ∀ i, i ≠ 2 → i ≠ 3 →
        (negotiate hc mt s).testBit i = (phase1 hc s).testBit i) ∧
    (mt.treadmill = false →
      (mt.cross_trainer || mt.indoor_bike || mt.rower) = true →
      (negotiate hc mt s).testBit 0 = false ∧
      (negotiate hc mt s).testBit 1 = false ∧
      ∀ i, i ≠ 0 → i ≠ 1 →
        (negotiate hc mt s).testBit i = (phase1 hc s).testBit i) := by
  have hx := @phase1_testBit_high hc s hs
  constructor
  · intro h
    unfold negotiate
    rw [phase2_treadmill h]
    refine ⟨?_, ?_, ?_⟩
    · rw [Nat.testBit_and,
        show Nat.testBit (MachineSettings.mask ^^^
          (MachineSettings.RESISTANCE ||| MachineSettings.POWER)) 2 =
          false from by decide, Bool.and_false]
    · rw [Nat.testBit_and,
        show Nat.testBit (MachineSettings.mask ^^^
          (MachineSettings.RESISTANCE ||| MachineSettings.POWER)) 3 =
          false from by decide, Bool.and_false]
    · intro i hi2 hi3
      rw [Nat.testBit_and]
      by_cases hlt : i < 17
      · have hA : ∀ j, j < 17 → j ≠ 2 → j ≠ 3 →
            Nat.testBit (MachineSettings.mask ^^^
              (MachineSettings.RESISTANCE ||| MachineSettings.POWER)) j
              = true := by decide
        rw [hA i hlt hi2 hi3, Bool.and_true]
      · rw [hx i (le_of_not_lt hlt), Bool.false_and]
  · intro ht hor
    unfold negotiate
    rw [phase2_non_treadmill ht hor]
    refine ⟨?_, ?_, ?_⟩
    · rw [Nat.testBit_and,
        show Nat.testBit (MachineSettings.mask ^^^
          (MachineSettings.SPEED ||| MachineSettings.INCLINE)) 0 =
          false from by decide, Bool.and_false]
    · rw [Nat.testBit_and,
        show Nat.testBit (MachineSettings.mask ^^^
          (MachineSettings.SPEED ||| MachineSettings.INCLINE)) 1 =
          false from by decide, Bool.and_false]
    · intro i hi0 hi1
      rw [Nat.testBit_and]
      by_cases hlt : i < 17
      · have hB : ∀ j, j < 17 → j ≠ 0 → j ≠ 1 →
            Nat.testBit (MachineSettings.mask ^^^
              (MachineSettings.SPEED ||| MachineSettings.INCLINE)) j
              = true := by decide
        rw [hB i hlt hi0 hi1, Bool.and_true]
      · rw [hx i (le_of_not_lt hlt), Bool.false_and]

/-- C4 (witness): a device asserting both treadmill and indoor-bike is
treated as a treadmill — the speed bit (0) of the phase-1 result
survives phase 2. -/
theorem phase2_rule_dispatch_witness :
    (negotiate (fun _ => true) ⟨true, false, true, false⟩
        0x1FFFF).testBit 0 =
      (phase1 (fun _ => true) 0x1FFFF).testBit 0 :=
  ((phase2_rule_dispatch (fun _ => true) ⟨true, false, true, false⟩
      0x1FFFF (by norm_num)).1 rfl).2.2 0 (by decide) (by decide)

/-! ### Claim C3 -/

/-- C3: with raw settings asserting exactly speed, incline and
resistance, category indoor-bike, the speed range characteristic
present and the incline and resistance ones absent (other range
characteristics arbitrary), negotiation returns the empty settings
set: incline and resistance fall in phase 1 to descriptor absence,
and speed, having survived phase 1, falls in phase 2 to the
indoor-bike rule. -/
theorem negotiate_scenario_indoor_bike (hc : String → Bool)
    (h1 : hc SPEED_RANGE_UUID = true)
    (h2 : hc INCLINATION_RANGE_UUID = false)
    (h3 : hc RESISTANCE_LEVEL_RANGE_UUID = false) :
    negotiate hc ⟨false, false, true, false⟩
      (MachineSettings.SPEED ||| MachineSettings.INCLINE |||
        MachineSettings.RESISTANCE) = 0 := by
  have e1 : prune MachineSettings.SPEED (hc SPEED_RANGE_UUID) 7 = 7 := by
    rw [h1]; decide
  have e2 : prune MachineSettings.INCLINE (hc INCLINATION_RANGE_UUID) 7
      = 5 := by
    rw [h2]; decide
  have e3 : prune MachineSettings.RESISTANCE
      (hc RESISTANCE_LEVEL_RANGE_UUID) 5 = 1 := by
    rw [h3]; decide
  have e4 : ∀ p, prune MachineSettings.POWER p 1 = 1 := by
    intro p; unfold prune; rw [if_neg (by decide)]
  have e5 : ∀ p, prune MachineSettings.HEART_RATE p 1 = 1 := by
    intro p; unfold prune; rw [if_neg (by decide)]
  show negotiate hc ⟨false, false, true, false⟩ 7 = 0
  unfold negotiate phase1
  rw [e1, e2, e3, e4, e5]
  decide

/-- C3 (witness): applied with a concrete presence predicate exposing
only the speed range characteristic. -/
theorem negotiate_scenario_indoor_bike_witness :
    negotiate (fun u => if u = SPEED_RANGE_UUID then true else false)
      ⟨false, false, true, false⟩
      (MachineSettings.SPEED ||| MachineSettings.INCLINE |||
        MachineSettings.RESISTANCE) = 0 :=
  negotiate_scenario_indoor_bike
    (fun u => if u = SPEED_RANGE_UUID then true else false)
    (by decide) (by decide) (by decide)

/-! ### Claim C8 -/

/-- C8: when `_range` decodes a range descriptor buffer holding fewer
bytes than its three fixed-point values require, decoding fails with
`TruncatedBufferError`; no `SettingRange` is produced. -/
theorem settingRangeOf_truncated (f : NumFormat) (data : List Nat)
    (hlen : data.length < 3 * f.width) :
    settingRangeOf f data = .error .truncatedBuffer := by
  unfold settingRangeOf deserialize
  by_cases h1 : f.width ≤ data.length
  · rw [if_pos h1]
    dsimp only
    by_cases h2 : f.width ≤ (data.drop f.width).length
    · rw [if_pos h2]
      dsimp only
      have h3 : ¬ f.width ≤ ((data.drop f.width).drop f.width).length := by
        simp only [List.length_drop]
        omega
      rw [if_neg h3]
    · rw [if_neg h2]
  · rw [if_neg h1]

/-- C8 (witness): a 3-byte buffer for the 6-byte speed range format. -/
theorem settingRangeOf_truncated_witness :
    ([0, 0, 0] : List Nat).length < 3 * fmt_u2_01.width ∧
    settingRangeOf fmt_u2_01 [0, 0, 0] = .error .truncatedBuffer :=
  ⟨by decide, settingRangeOf_truncated fmt_u2_01 [0, 0, 0] (by decide)⟩

/-! ### Claim C9 -/

theorem addRange_keys (bit : Nat) (key : String) (f : NumFormat)
    (bytes : List Nat) (s : Nat) (acc r : List (String × SettingRange))
    (h : addRange bit key f bytes s acc = .ok r) :
    r.map Prod.fst =
      acc.map Prod.fst ++ (if s &&& bit = bit then [key] else []) := by
  unfold addRange at h
  split at h
  · rename_i hcond
    split at h
    · exact Except.noConfusion h
    · cases h
      rw [if_pos hcond]
      simp
  · rename_i hcond
    cases h
    rw [if_neg hcond]
    simp

/-- C9: whenever `read_supported_ranges` returns a table, its key
sequence is exactly the asserted members of the given settings value
restricted to the five range-bearing settings, in source order — in
particular a subset of those five, with no key for an unasserted
bit. -/
theorem read_supported_ranges_keys (rb : String → List Nat) (s : Nat)
    (t : List (String × SettingRange))
    (h : read_supported_ranges rb s = .ok t) :
    t.map Prod.fst =
      (if s &&& MachineSettings.SPEED = MachineSettings.SPEED then
        [TARGET_SPEED] else []) ++
      (if s &&& MachineSettings.INCLINE = MachineSettings.INCLINE then
        [TARGET_INCLINATION] else []) ++
      (if s &&& MachineSettings.RESISTANCE = MachineSettings.RESISTANCE
        then [TARGET_RESISTANCE] else []) ++
      (if s &&& MachineSettings.POWER = MachineSettings.POWER then
        [TARGET_POWER] else []) ++
      (if s &&& MachineSettings.HEART_RATE = MachineSettings.HEART_RATE
        then [TARGET_HEART_RATE] else []) := by
  unfold read_supported_ranges at h
  split at h
  · exact Except.noConfusion h
  · rename_i r1 heq1
    split at h
    · exact Except.noConfusion h
    · rename_i r2 heq2
      split at h
      · exact Except.noConfusion h
      · rename_i r3 heq3
        split at h
        · exact Except.noConfusion h
        · rename_i r4 heq4
          have k1 := addRange_keys _ _ _ _ _ _ _ heq1
          have k2 := addRange_keys _ _ _ _ _ _ _ heq2
          have k3 := addRange_keys _ _ _ _ _ _ _ heq3
          have k4 := addRange_keys _ _ _ _ _ _ _ heq4
          have k5 := addRange_keys _ _ _ _ _ _ _ h
          rw [k5, k4, k3, k2, k1]
          simp [List.append_assoc]

/-- C9 (witness): with no settings asserted the table is empty and so
is the expected key sequence. -/
theorem read_supported_ranges_keys_witness :
    ([] : List (String × SettingRange)).map Prod.fst =
      (if 0 &&& MachineSettings.SPEED = MachineSettings.SPEED then
        [TARGET_SPEED] else []) ++
      (if 0 &&& MachineSettings.INCLINE = MachineSettings.INCLINE then
        [TARGET_INCLINATION] else []) ++
      (if 0 &&& MachineSettings.RESISTANCE = MachineSettings.RESISTANCE
        then [TARGET_RESISTANCE] else []) ++
      (if 0 &&& MachineSettings.POWER = MachineSettings.POWER then
        [TARGET_POWER] else []) ++
      (if 0 &&& MachineSettings.HEART_RATE = MachineSettings.HEART_RATE
        then [TARGET_HEART_RATE] else []) :=
  read_supported_ranges_keys (fun _ => []) 0 [] rfl

end PyFtms
